import Mathlib

/-!
Verification of the enrollment/progress-gating and quiz subsystem of the
CodeMap backend (Express + Mongoose).  The definitions below are a shallow
embedding of the JavaScript source:

* `src/controllers/questionpoolController.js`:
  `checkCategoryCompletion`, `generateTaskFromQuestionPool`,
  `markLessonAsCompleted`, `startQuiz`, `checkQuizTimeLimit`;
* `src/controllers/submissionController.js`: `submitQuiz`;
* the Mongoose schemas for Submission, Tasks, QuestionPool, Category,
  Lesson, Stage, Roadmap and User (the fields the controllers touch).

Modelling conventions:

* Mongo ObjectIds are natural numbers (`Oid`).  The various
  `toString()` normalisations in the source compare ids through an
  injective encoding, so id comparison is plain equality here.
* Timestamps are milliseconds since the epoch, as in JavaScript
  (`Date.getTime()`).  The check `(now - start) / 60000 > timeLimit` is
  embedded as `now - start > timeLimit * 60000`, which is equivalent in
  exact arithmetic; a start time in the future gives a non-positive
  elapsed time in JavaScript and a truncated 0 here, not-expired either way.
* A MongoDB database is a `DB` record of collections (lists of documents in
  collection order); `find` returns the filtered list in that order and
  `findById`/`findOne` the first match.  Client-side ObjectId generation
  (`new Submission(...)`, `new Task(...)`) draws from `DB.nextId`.
* A Mongoose transaction is embedded by returning the original `DB` on
  every abort path, and the updated `DB` only on commit.
* `populate` on a reference array keeps, for each reference in order, the
  referenced document and drops references that do not resolve.
* The random index stream of the selection loop in
  `generateTaskFromQuestionPool` is an explicit finite list of naturals;
  running out of indices models a loop that has not finished and yields
  `none`, so every terminating run of the source corresponds to a `some`.
* Fire-and-forget notification emission is omitted: the source catches and
  logs its failures without affecting any state or response.
* The `mongoose.Types.ObjectId.isValid` guards are omitted: identifiers in
  the model are already well-formed ids.
-/

namespace CodeMap

abbrev Oid := Nat

inductive QType
  | text
  | multipleChoice
  | code
deriving DecidableEq

/-- Option of a pool question: Mongo subdocument id plus the string
`id` field (such as "q13opt4") that `correctAnswers` references. -/
structure PoolOption where
  oid : Oid
  optId : String
  text : String
deriving DecidableEq

/-- Question embedded in a QuestionPool (`questionPoolSchema.questions`). -/
structure PoolQuestion where
  oid : Oid
  questionText : String
  questionType : QType
  options : List PoolOption
  correctAnswers : List String
  allowMultipleAnswers : Bool
  points : Nat
deriving DecidableEq

/-- QuestionPool document (fields used by the controllers). -/
structure QuestionPool where
  oid : Oid
  category : Oid
  questions : List PoolQuestion
  isActive : Bool
  tasks : List Oid
deriving DecidableEq

/-- Lesson document. -/
structure Lesson where
  oid : Oid
  title : String
  category : Oid
  stage : Oid
  roadmap : Oid
  lecture_number : Nat
  completedby : List Oid
deriving DecidableEq

/-- Category document. -/
structure Category where
  oid : Oid
  title : String
  stage : Oid
  roadmap : Oid
  lesson : List Oid
  task : List Oid
  quizQuestionCount : Nat
  questionpool : List Oid
deriving DecidableEq

/-- Stage document. -/
structure Stage where
  oid : Oid
  title : String
  roadmap : Oid
  order : Nat
deriving DecidableEq

/-- Roadmap document (only its existence matters to the core). -/
structure Roadmap where
  oid : Oid
deriving DecidableEq

/-- User document (progress fields). -/
structure User where
  oid : Oid
  roadmap : List Oid
  completedlesson : List Oid
  task : List Oid
deriving DecidableEq

/-- Option copied into a Task question snapshot (`tasksSchema.questions.options`). -/
structure TaskOption where
  oid : Oid
  text : String
deriving DecidableEq

/-- Question snapshot embedded in a Task.  The Tasks schema does not declare
an `allowMultipleAnswers` path, and `generateTaskFromQuestionPool` does not
copy it, so reading it back from a stored document yields a falsy value;
the field here records the value `submitQuiz` observes. -/
structure TaskQuestion where
  oid : Oid
  questionText : String
  questionType : QType
  options : List TaskOption
  correctAnswers : List Oid
  allowMultipleAnswers : Bool
  points : Nat
deriving DecidableEq

inductive TaskStatus
  | pending
  | inProgress
  | completed
deriving DecidableEq

/-- Per-user session record on a Task (`tasksSchema.userSessions`). -/
structure UserSession where
  user : Oid
  startedAt : Option Nat
  completed : Bool
  score : Option Nat
deriving DecidableEq

/-- Task document. -/
structure Task where
  oid : Oid
  title : String
  status : TaskStatus
  questions : List TaskQuestion
  totalPoints : Nat
  category : Oid
  user : Oid
  questionpool : Oid
  timeLimit : Nat
  userSessions : List UserSession
  startedUsers : List Oid
deriving DecidableEq

inductive SubStatus
  | inProgress
  | submitted
  | graded
  | expired
deriving DecidableEq

/-- Stored answer on a submission (`submissionSchema.answers`). -/
structure Answer where
  questionId : Oid
  selectedOptions : List Oid
deriving DecidableEq

/-- Submission document. -/
structure Submission where
  oid : Oid
  task : Oid
  user : Oid
  startedAt : Nat
  completedAt : Option Nat
  timeSpent : Option Nat
  answers : List Answer
  score : Nat
  correctAnswers : Nat
  totalQuestions : Nat
  percentageScore : Nat
  isLocked : Bool
  status : SubStatus
  currentQuestionIndex : Nat
deriving DecidableEq

/-- Incoming answer in the `submitQuiz` request body. -/
structure IncomingAnswer where
  questionId : Oid
  selectedOptionIds : List Oid
deriving DecidableEq

/-- The database: one list per collection, in collection order, plus the
source of client-side generated ObjectIds. -/
structure DB where
  users : List User
  lessons : List Lesson
  categories : List Category
  stages : List Stage
  roadmaps : List Roadmap
  questionPools : List QuestionPool
  tasks : List Task
  submissions : List Submission
  nextId : Oid
deriving DecidableEq

/-! ### Store primitives -/

def findUser (db : DB) (id : Oid) : Option User :=
  db.users.find? (fun u => decide (u.oid = id))

def findLesson (db : DB) (id : Oid) : Option Lesson :=
  db.lessons.find? (fun l => decide (l.oid = id))

def findCategory (db : DB) (id : Oid) : Option Category :=
  db.categories.find? (fun c => decide (c.oid = id))

def findStage (db : DB) (id : Oid) : Option Stage :=
  db.stages.find? (fun s => decide (s.oid = id))

def findRoadmap (db : DB) (id : Oid) : Option Roadmap :=
  db.roadmaps.find? (fun r => decide (r.oid = id))

def findTask (db : DB) (id : Oid) : Option Task :=
  db.tasks.find? (fun t => decide (t.oid = id))

/-- `Submission.findOne({ task, user })`: first match in collection order,
locked or not (the source does not filter on `isLocked` here). -/
def findSubmission (db : DB) (taskId userId : Oid) : Option Submission :=
  db.submissions.find? (fun s => decide (s.task = taskId ∧ s.user = userId))

/-- `$addToSet` on an ObjectId array. -/
def addToSet (l : List Oid) (x : Oid) : List Oid :=
  if l.contains x then l else l ++ [x]

def updateUser (db : DB) (id : Oid) (f : User → User) : DB :=
  { db with users := db.users.map (fun u => if u.oid = id then f u else u) }

def updateLesson (db : DB) (id : Oid) (f : Lesson → Lesson) : DB :=
  { db with lessons := db.lessons.map (fun l => if l.oid = id then f l else l) }

def updateCategory (db : DB) (id : Oid) (f : Category → Category) : DB :=
  { db with categories := db.categories.map (fun c => if c.oid = id then f c else c) }

def updatePool (db : DB) (id : Oid) (f : QuestionPool → QuestionPool) : DB :=
  { db with questionPools := db.questionPools.map (fun p => if p.oid = id then f p else p) }

/-- `task.save()`: replace the document with the same id. -/
def saveTask (db : DB) (t : Task) : DB :=
  { db with tasks := db.tasks.map (fun x => if x.oid = t.oid then t else x) }

/-- `submission.save()`: replace if present, insert otherwise. -/
def saveSubmission (db : DB) (s : Submission) : DB :=
  if db.submissions.any (fun x => decide (x.oid = s.oid)) then
    { db with submissions := db.submissions.map (fun x => if x.oid = s.oid then s else x) }
  else
    { db with submissions := db.submissions ++ [s] }

/-- Mongoose `populate` of a reference array: resolved documents in
reference order, unresolved references dropped. -/
def populatedLessons (db : DB) (c : Category) : List Lesson :=
  c.lesson.filterMap (findLesson db)

/-! ### submitQuiz (src/controllers/submissionController.js) -/

/-- Mutate the first matching element of a list, as a JavaScript
`findIndex` followed by an in-place assignment does. -/
def mapFirst {α : Type} (p : α → Bool) (f : α → α) : List α → List α
  | [] => []
  | x :: rest => if p x then f x :: rest else x :: mapFirst p f rest

/-- Merge one incoming answer into the stored answers: update the first
entry with the same questionId in place, else append. -/
def mergeOne (acc : List Answer) (a : IncomingAnswer) : List Answer :=
  if acc.any (fun e => decide (e.questionId = a.questionId)) then
    mapFirst (fun e => decide (e.questionId = a.questionId))
      (fun e => { e with selectedOptions := a.selectedOptionIds }) acc
  else
    acc ++ [{ questionId := a.questionId, selectedOptions := a.selectedOptionIds }]

def mergeAnswers (stored : List Answer) (incoming : List IncomingAnswer) : List Answer :=
  incoming.foldl mergeOne stored

/-- Per-question correctness as computed by the scoring loop of
`submitQuiz`: look up the submitted answer by question id; single-answer
questions need exactly one selected option that is among
`correctAnswers`; multi-answer questions need the two `every` checks. -/
def questionScoredCorrect (answersList : List Answer) (q : TaskQuestion) : Bool :=
  match answersList.find? (fun a => decide (a.questionId = q.oid)) with
  | none => false
  | some a =>
    let ca := q.correctAnswers
    let ua := a.selectedOptions
    if q.allowMultipleAnswers then
      ca.all (fun c => ua.contains c) && ua.all (fun u => ca.contains u)
    else
      match ua with
      | [u] => ca.contains u
      | _ => false

/-- `Math.round((correctCount / totalQuestions) * 100)`, 0 when
`totalQuestions = 0`; JavaScript rounds halves up, which on exact
arithmetic is `(200 c + t) / (2 t)` in natural division. -/
def percentageOf (c t : Nat) : Nat :=
  if t = 0 then 0 else (200 * c + t) / (2 * t)

inductive SubmitResult
  | taskNotFound
  | forbidden
  | alreadyFinalized
  | expired (submission : Submission)
  | graded (score maxScore percentage : Nat) (submission : Submission)
deriving DecidableEq

/-- HTTP status of each `submitQuiz` outcome in the source. -/
def submitStatus : SubmitResult → Nat
  | .taskNotFound => 404
  | .forbidden => 403
  | .alreadyFinalized => 400
  | .expired _ => 400
  | .graded _ _ _ _ => 200

def isExpiredResult : SubmitResult → Bool
  | .expired _ => true
  | _ => false

def submitQuiz (userId taskId : Oid) (answers : List IncomingAnswer)
    (now : Nat) (db : DB) : SubmitResult × DB :=
  match findTask db taskId with
  | none => (.taskNotFound, db)
  | some task =>
    if task.user ≠ userId then (.forbidden, db)
    else
      let found := findSubmission db taskId userId
      let submission := found.getD
        { oid := db.nextId, task := taskId, user := userId, startedAt := now,
          completedAt := none, timeSpent := none, answers := [], score := 0,
          correctAnswers := 0, totalQuestions := task.questions.length,
          percentageScore := 0, isLocked := false, status := .inProgress,
          currentQuestionIndex := 0 }
      let db0 := if found.isSome then db else { db with nextId := db.nextId + 1 }
      if submission.isLocked then (.alreadyFinalized, db)
      else if now - submission.startedAt > task.timeLimit * 60000 then
        let subE := { submission with
          status := SubStatus.expired, isLocked := true,
          completedAt := some now, timeSpent := some (task.timeLimit * 60) }
        let taskE := { task with
          status := TaskStatus.completed,
          userSessions := mapFirst (fun s => decide (s.user = userId))
            (fun s => { s with completed := true }) task.userSessions }
        (.expired subE, saveTask (saveSubmission db0 subE) taskE)
      else
        let merged := mergeAnswers submission.answers answers
        let total := task.questions.length
        let correctCount := task.questions.countP (questionScoredCorrect merged)
        let subG := { submission with
          answers := merged, status := SubStatus.graded, isLocked := true,
          completedAt := some now, score := correctCount,
          correctAnswers := correctCount, totalQuestions := total,
          percentageScore := percentageOf correctCount total,
          timeSpent := some ((now - submission.startedAt) / 1000) }
        let taskG := { task with
          status := TaskStatus.completed,
          userSessions := mapFirst (fun s => decide (s.user = userId))
            (fun s => { s with completed := true, score := some correctCount })
            task.userSessions }
        (.graded correctCount total (percentageOf correctCount total) subG,
          saveTask (saveSubmission db0 subG) taskG)

/-! ### checkQuizTimeLimit (src/controllers/questionpoolController.js) -/

inductive TimeCheckResult
  | taskNotFound
  | notInProgress (status : TaskStatus)
  | noSession
  | alreadySubmitted
  | autoSubmit
  | stillRunning (remainingMs : Nat)
deriving DecidableEq

def shouldAutoSubmit : TimeCheckResult → Bool
  | .autoSubmit => true
  | _ => false

/-- The `timeRemaining` field of the JSON response, in milliseconds
(`null` encoded as `none`; the source reports fractional minutes). -/
def timeRemainingOf : TimeCheckResult → Option Nat
  | .autoSubmit => some 0
  | .stillRunning r => some r
  | _ => none

def checkQuizTimeLimit (userId taskId : Oid) (now : Nat) (db : DB) : TimeCheckResult :=
  match findTask db taskId with
  | none => .taskNotFound
  | some task =>
    if task.status ≠ TaskStatus.inProgress then .notInProgress task.status
    else
      match task.userSessions.find? (fun s => decide (s.user = userId)) with
      | none => .noSession
      | some s =>
        match s.startedAt with
        | none => .noSession
        | some st =>
          if s.completed then .alreadySubmitted
          else if now - st > task.timeLimit * 60000 then .autoSubmit
          else .stillRunning (task.timeLimit * 60000 - (now - st))

/-! ### startQuiz (src/controllers/questionpoolController.js) -/

inductive StartResult
  | taskNotFound
  | forbidden
  | alreadyStatus (status : TaskStatus)
  | ok (task : Task) (submission : Submission)
  | serverError
deriving DecidableEq

/-- HTTP status of each `startQuiz` outcome in the source; the catch-all
handler turns any save error, including the duplicate-key rejection from
the partial unique index on (task, user, isLocked=false), into a 500. -/
def startStatus : StartResult → Nat
  | .taskNotFound => 404
  | .forbidden => 403
  | .alreadyStatus _ => 400
  | .ok _ _ => 200
  | .serverError => 500

/-- The partial unique index `{task: 1, user: 1, isLocked: 1}` with
`partialFilterExpression {isLocked: false}` rejects an unlocked insert
exactly when an unlocked submission for the same (task, user) exists. -/
def hasActiveSubmission (db : DB) (taskId userId : Oid) : Bool :=
  db.submissions.any (fun s => decide (s.task = taskId ∧ s.user = userId ∧ s.isLocked = false))

def startQuiz (userId taskId : Oid) (now : Nat) (db : DB) : StartResult × DB :=
  match findTask db taskId with
  | none => (.taskNotFound, db)
  | some task =>
    if task.user ≠ userId then (.forbidden, db)
    else if task.status ≠ TaskStatus.pending then (.alreadyStatus task.status, db)
    else
      let task1 := { task with
        status := TaskStatus.inProgress,
        userSessions :=
          if task.userSessions.any (fun s => decide (s.user = userId)) then
            mapFirst (fun s => decide (s.user = userId))
              (fun s => { s with startedAt := some now }) task.userSessions
          else
            task.userSessions ++
              [{ user := userId, startedAt := some now, completed := false, score := none }],
        startedUsers := addToSet task.startedUsers userId }
      let sub : Submission :=
        { oid := db.nextId, task := taskId, user := userId, startedAt := now,
          completedAt := none, timeSpent := none, answers := [], score := 0,
          correctAnswers := 0, totalQuestions := task.questions.length,
          percentageScore := 0, isLocked := false, status := .inProgress,
          currentQuestionIndex := 0 }
      if hasActiveSubmission db taskId userId then
        (.serverError, db)
      else
        let db1 := saveTask { db with nextId := db.nextId + 1 } task1
        (.ok task1 sub, { db1 with submissions := db1.submissions ++ [sub] })

/-! ### checkCategoryCompletion (src/controllers/questionpoolController.js) -/

inductive CheckResult
  | failure (msg : String)
  | ok (isCompleted : Bool) (completedCount totalCount : Nat)
deriving DecidableEq

def checkCategoryCompletion (userId categoryId : Oid) (db : DB) : CheckResult :=
  match findCategory db categoryId with
  | none => .failure "Category not found"
  | some category =>
    let lessonsInCategory := populatedLessons db category
    if lessonsInCategory.isEmpty then .failure "No lessons found in this category"
    else
      let lessonIds := lessonsInCategory.map (fun l => l.oid)
      let completedLessons := db.lessons.filter
        (fun l => lessonIds.contains l.oid && l.completedby.contains userId)
      .ok (decide (completedLessons.length = lessonIds.length))
        completedLessons.length lessonIds.length

/-! ### generateTaskFromQuestionPool (src/controllers/questionpoolController.js) -/

/-- The rejection-sampling loop: draw the question at each random index in
turn, keep it when its id is new, stop at `count` kept questions.  `none`
models a run whose loop has not finished within the supplied index stream. -/
def selectLoop (candidates : List PoolQuestion) (count : Nat) :
    List Nat → List PoolQuestion → Option (List PoolQuestion)
  | [], acc => if count ≤ acc.length then some acc else none
  | i :: rest, acc =>
    if count ≤ acc.length then some acc
    else
      match candidates[i % candidates.length]? with
      | none => none
      | some pick =>
        if acc.any (fun q => decide (q.oid = pick.oid)) then
          selectLoop candidates count rest acc
        else
          selectLoop candidates count rest (acc ++ [pick])

/-- `category.quizQuestionCount || 10`: a falsy stored count falls back to 10. -/
def effectiveQuizCount (c : Category) : Nat :=
  if c.quizQuestionCount = 0 then 10 else c.quizQuestionCount

def activePoolsOf (db : DB) (categoryId : Oid) : List QuestionPool :=
  db.questionPools.filter (fun p => decide (p.category = categoryId ∧ p.isActive = true))

/-- All multiple-choice questions aggregated across the active pools of the
category, in pool order. -/
def candidateQuestions (db : DB) (categoryId : Oid) : List PoolQuestion :=
  (activePoolsOf db categoryId).flatMap
    (fun p => p.questions.filter (fun q => decide (q.questionType = QType.multipleChoice)))

/-- Snapshot of a selected pool question into the Task: options copied with
their Mongo ids, `correctAnswers` remapped from the string option ids to
those Mongo ids; `allowMultipleAnswers` is not copied (the Tasks schema has
no such path), so the stored snapshot reads it back falsy. -/
def snapshotQuestion (q : PoolQuestion) : TaskQuestion :=
  { oid := q.oid
    questionText := q.questionText
    questionType := q.questionType
    options := q.options.map (fun o => { oid := o.oid, text := o.text })
    correctAnswers :=
      (q.options.filter (fun o => q.correctAnswers.contains o.optId)).map (fun o => o.oid)
    allowMultipleAnswers := false
    points := q.points }

inductive GenResult
  | ok (task : Task)
  | failure (msg : String)
deriving DecidableEq

/-- The Task document built in step 9 of `generateTaskFromQuestionPool`:
snapshot of the selected questions, their total points (`q.points || 1`),
status `pending`, the default 60-minute time limit, a fresh ObjectId. -/
def genTask (userId categoryId questionpoolId : Oid) (category : Category)
    (selectedQuestions : List PoolQuestion) (newId : Oid) : Task :=
  { oid := newId
    title := category.title ++ " Assessment"
    status := TaskStatus.pending
    questions := selectedQuestions.map snapshotQuestion
    totalPoints := selectedQuestions.foldl
      (fun sum q => sum + (if q.points = 0 then 1 else q.points)) 0
    category := categoryId
    user := userId
    questionpool := questionpoolId
    timeLimit := 60
    userSessions := []
    startedUsers := [] }

/-- The writes of a successful generation: insert the new Task and
`$addToSet` its id on the user, the category and the source pool. -/
def genCommit (userId categoryId questionpoolId : Oid) (category : Category)
    (selectedQuestions : List PoolQuestion) (db : DB) : DB :=
  updatePool
    (updateCategory
      (updateUser
        { db with
          nextId := db.nextId + 1,
          tasks := db.tasks
            ++ [genTask userId categoryId questionpoolId category selectedQuestions db.nextId] }
        userId (fun u => { u with task := addToSet u.task db.nextId }))
      categoryId (fun c => { c with task := addToSet c.task db.nextId }))
    questionpoolId (fun p => { p with tasks := addToSet p.tasks db.nextId })

def generateTaskFromQuestionPool (userId categoryId : Oid) (picks : List Nat)
    (db : DB) : Option (GenResult × DB) :=
  if (activePoolsOf db categoryId).isEmpty then
    some (.failure "No active question pools found for this category", db)
  else
    match findCategory db categoryId with
    | none => some (.failure "Category not found.", db)
    | some category =>
      match category.questionpool.head? with
      | none => some (.failure "Category does not have an associated question pool.", db)
      | some questionpoolId =>
        if (candidateQuestions db categoryId).length < effectiveQuizCount category then
          some (.failure ("Not enough multiple-choice questions. Found "
            ++ toString (candidateQuestions db categoryId).length ++ ", but need "
            ++ toString (effectiveQuizCount category)), db)
        else
          match selectLoop (candidateQuestions db categoryId)
              (effectiveQuizCount category) picks [] with
          | none => none
          | some selectedQuestions =>
            some (.ok (genTask userId categoryId questionpoolId category
                selectedQuestions db.nextId),
              genCommit userId categoryId questionpoolId category selectedQuestions db)

/-! ### markLessonAsCompleted (src/controllers/questionpoolController.js) -/

/-- Insert a stage into an order-sorted list before the first stage of
greater-or-equal `order` (keeps earlier-listed stages first among equal
orders). -/
def insertByOrder (s : Stage) : List Stage → List Stage
  | [] => [s]
  | t :: rest =>
    if s.order ≤ t.order then s :: t :: rest else t :: insertByOrder s rest

/-- Stable sort by `order`, matching the stable `sort({order: 1})` of the
source (every stable sort under the same key produces the same list). -/
def sortByOrder : List Stage → List Stage
  | [] => []
  | s :: rest => insertByOrder s (sortByOrder rest)

/-- Stages of a roadmap sorted by `order`
(`Stage.find({roadmap}).sort({order: 1})`). -/
def sortedStagesOf (db : DB) (roadmapId : Oid) : List Stage :=
  sortByOrder (db.stages.filter (fun s => decide (s.roadmap = roadmapId)))

/-- Prefix of a list before the first element satisfying `p`; empty when no
element does (a JavaScript `findIndex` of -1 runs the loop zero times). -/
def takeBefore {α : Type} (p : α → Bool) (l : List α) : List α :=
  match l.findIdx? p with
  | some i => l.take i
  | none => []

def categoriesOfStage (db : DB) (stageId : Oid) : List Category :=
  db.categories.filter (fun c => decide (c.stage = stageId))

/-- First lesson of a list the user has not completed. -/
def firstUncompleted (user : User) (ls : List Lesson) : Option Lesson :=
  ls.find? (fun l => !(user.completedlesson.contains l.oid))

/-- Tier 1: scan every stage before the current one in the order-sorted
stage list of the roadmap; inside each, every category of that stage and
its populated lessons; report the first lesson the user has not completed. -/
def stageTierViolation (db : DB) (user : User) (stg : Stage) (roadmapId : Oid) :
    Option Lesson :=
  (takeBefore (fun s => decide (s.oid = stg.oid)) (sortedStagesOf db roadmapId)).findSome?
    (fun st => (categoriesOfStage db st.oid).findSome?
      (fun c => firstUncompleted user (populatedLessons db c)))

/-- Tier 2: scan every category before the current one in the collection
order of the categories of the current stage. -/
def categoryTierViolation (db : DB) (user : User) (cat : Category) (stg : Stage) :
    Option Lesson :=
  (takeBefore (fun c => decide (c.oid = cat.oid)) (categoriesOfStage db stg.oid)).findSome?
    (fun c => firstUncompleted user (populatedLessons db c))

/-- Tier 3: in the collection-order list of the lessons of the current
category (the source issues `Lesson.find({category})` with no sort), the
element immediately before the current lesson must be completed. -/
def lessonTierViolation (db : DB) (user : User) (cat : Category) (lessonId : Oid) :
    Option Lesson :=
  let ls := db.lessons.filter (fun l => decide (l.category = cat.oid))
  match ls.findIdx? (fun l => decide (l.oid = lessonId)) with
  | none => none
  | some 0 => none
  | some (i + 1) =>
    match ls[i]? with
    | none => none
    | some p => if user.completedlesson.contains p.oid then none else some p

/-- Record the completion: `$addToSet` the lesson on the user and the user
on the lesson. -/
def addCompletion (db : DB) (userId lessonId : Oid) : DB :=
  updateLesson
    (updateUser db userId (fun u => { u with completedlesson := addToSet u.completedlesson lessonId }))
    lessonId (fun l => { l with completedby := addToSet l.completedby userId })

inductive MarkResult
  | lessonNotFound
  | userNotFound
  | notEnrolled
  | alreadyCompleted
  | hierarchyError
  | stagePrereq (blocking : Oid) (blockingTitle : String)
  | categoryPrereq (blocking : Oid) (blockingTitle : String)
  | lessonPrereq (blocking : Oid) (blockingTitle : String)
  | categoryCheckError (msg : String)
  | genFailed (msg : String)
  | completedWithTask (task : Task)
  | completedNoTask
deriving DecidableEq

/-- HTTP status of each `markLessonAsCompleted` outcome in the source. -/
def markStatus : MarkResult → Nat
  | .lessonNotFound => 404
  | .userNotFound => 404
  | .notEnrolled => 403
  | .alreadyCompleted => 400
  | .hierarchyError => 500
  | .stagePrereq _ _ => 403
  | .categoryPrereq _ _ => 403
  | .lessonPrereq _ _ => 403
  | .categoryCheckError _ => 500
  | .genFailed _ => 500
  | .completedWithTask _ => 200
  | .completedNoTask => 200

/-- The `taskGenerated` flag of the JSON response. -/
def taskGeneratedFlag : MarkResult → Bool
  | .completedWithTask _ => true
  | _ => false

def markLessonAsCompleted (userId lessonId : Oid) (picks : List Nat) (db : DB) :
    Option (MarkResult × DB) :=
  match findLesson db lessonId with
  | none => some (.lessonNotFound, db)
  | some currentLesson =>
    match findUser db userId with
    | none => some (.userNotFound, db)
    | some user =>
      if ¬ user.roadmap.contains currentLesson.roadmap then some (.notEnrolled, db)
      else if user.completedlesson.contains lessonId then some (.alreadyCompleted, db)
      else
        match findCategory db currentLesson.category with
        | none => some (.hierarchyError, db)
        | some cat =>
        match findStage db currentLesson.stage with
        | none => some (.hierarchyError, db)
        | some stg =>
        match findRoadmap db currentLesson.roadmap with
        | none => some (.hierarchyError, db)
        | some _ =>
          match stageTierViolation db user stg currentLesson.roadmap with
          | some b => some (.stagePrereq b.oid b.title, db)
          | none =>
            match categoryTierViolation db user cat stg with
            | some b => some (.categoryPrereq b.oid b.title, db)
            | none =>
              match lessonTierViolation db user cat lessonId with
              | some b => some (.lessonPrereq b.oid b.title, db)
              | none =>
                match checkCategoryCompletion userId currentLesson.category
                    (addCompletion db userId lessonId) with
                | .failure msg => some (.categoryCheckError msg, db)
                | .ok isCompleted _ _ =>
                  if isCompleted then
                    match generateTaskFromQuestionPool userId currentLesson.category picks
                        (addCompletion db userId lessonId) with
                    | none => none
                    | some (.failure msg, _) => some (.genFailed msg, db)
                    | some (.ok task, db2) => some (.completedWithTask task, db2)
                  else
                    some (.completedNoTask, addCompletion db userId lessonId)

/-! ### Specification-side predicates

These restate, in the words of the specification, the properties the
claims attribute to the code; the theorems below compare them with the
embedded source functions. -/

/-- Single-answer correctness as the spec words it: exactly one option was
selected and it is among the correct answers. -/
def specSingleCorrect (sel ca : List Oid) : Prop :=
  ∃ u, sel = [u] ∧ u ∈ ca

/-- Multi-answer correctness as the spec words it: the selected-option set
equals the correct-answer set exactly. -/
def specMultiCorrect (sel ca : List Oid) : Prop :=
  ∀ x, x ∈ sel ↔ x ∈ ca

/-- Per-question correctness as the spec words it, on the answer looked up
for the question; a question with no submitted answer is incorrect. -/
def specQuestionCorrect (answersList : List Answer) (q : TaskQuestion) : Prop :=
  ∃ a, answersList.find? (fun e => decide (e.questionId = q.oid)) = some a ∧
    ((q.allowMultipleAnswers = true ∧ specMultiCorrect a.selectedOptions q.correctAnswers) ∨
      (q.allowMultipleAnswers = false ∧ specSingleCorrect a.selectedOptions q.correctAnswers))

/-- The percentage as the spec words it: `round(correct / total * 100)` in
exact rational arithmetic (halves up), and 0 when `total = 0`. -/
def specPercentage (c t : Nat) : Nat :=
  if t = 0 then 0 else ⌊(c * 100 : ℚ) / t + 1 / 2⌋₊

/-- Tier 1 condition: every lesson of every category of every stage that
precedes the current stage in the order-sorted stage list of the roadmap is
completed by the user. -/
def specStagePrereq (db : DB) (user : User) (stg : Stage) (roadmapId : Oid) : Prop :=
  ∀ st ∈ takeBefore (fun s => decide (s.oid = stg.oid)) (sortedStagesOf db roadmapId),
    ∀ c ∈ categoriesOfStage db st.oid, ∀ l ∈ populatedLessons db c,
      l.oid ∈ user.completedlesson

/-- Tier 2 condition: every lesson of every category that precedes the
current category among the categories of the current stage is completed. -/
def specCategoryPrereq (db : DB) (user : User) (cat : Category) (stg : Stage) : Prop :=
  ∀ c ∈ takeBefore (fun c => decide (c.oid = cat.oid)) (categoriesOfStage db stg.oid),
    ∀ l ∈ populatedLessons db c, l.oid ∈ user.completedlesson

/-- The lesson immediately before the current one in the collection-order
lesson list of the category (what the unsorted `Lesson.find` scan of the
source actually takes as the previous lesson). -/
def listPredecessorOf (db : DB) (cat : Category) (lessonId : Oid) : Option Lesson :=
  let ls := db.lessons.filter (fun l => decide (l.category = cat.oid))
  match ls.findIdx? (fun l => decide (l.oid = lessonId)) with
  | none => none
  | some 0 => none
  | some (i + 1) => ls[i]?

/-- Tier 3 condition: the collection-order predecessor, when it exists, is
completed. -/
def specLessonPrereq (db : DB) (user : User) (cat : Category) (lessonId : Oid) : Prop :=
  ∀ p, listPredecessorOf db cat lessonId = some p → p.oid ∈ user.completedlesson

/-- `p` is the immediately preceding lesson of `cur` by `lecture_number`
within the category, as the claim words the lesson-level prerequisite. -/
def immediatelyPrecedingByLectureNumber (db : DB) (catId : Oid) (cur p : Lesson) : Prop :=
  p ∈ db.lessons ∧ p.category = catId ∧ p.lecture_number < cur.lecture_number ∧
    ∀ q ∈ db.lessons, q.category = catId → q.lecture_number < cur.lecture_number →
      q.lecture_number ≤ p.lecture_number

/-- At most one unlocked submission per (task, user) pair. -/
def atMostOneActive (db : DB) : Prop :=
  db.submissions.Pairwise (fun s1 s2 =>
    s1.isLocked = true ∨ s2.isLocked = true ∨ s1.task ≠ s2.task ∨ s1.user ≠ s2.user)

/-! ### Concrete states used by the witnesses and counterexamples -/

/-- Task with two single-answer multiple-choice questions. -/
def taskG : Task :=
  { oid := 1, title := "T", status := .inProgress,
    questions := [
      { oid := 101, questionText := "q1", questionType := .multipleChoice,
        options := [{ oid := 11, text := "A" }, { oid := 12, text := "B" }],
        correctAnswers := [11], allowMultipleAnswers := false, points := 1 },
      { oid := 102, questionText := "q2", questionType := .multipleChoice,
        options := [{ oid := 13, text := "A" }, { oid := 14, text := "B" }],
        correctAnswers := [13], allowMultipleAnswers := false, points := 1 }],
    totalPoints := 2, category := 3, user := 5, questionpool := 4, timeLimit := 60,
    userSessions := [{ user := 5, startedAt := some 0, completed := false, score := none }],
    startedUsers := [5] }

/-- State for grading runs: one task, no submission yet. -/
def dbGrade : DB :=
  { users := [{ oid := 5, roadmap := [], completedlesson := [], task := [1] }],
    lessons := [], categories := [], stages := [], roadmaps := [],
    questionPools := [], tasks := [taskG], submissions := [], nextId := 50 }

/-- Task with a one-minute time limit and an open session started at 0. -/
def taskT : Task :=
  { oid := 7, title := "T", status := .inProgress, questions := [],
    totalPoints := 0, category := 3, user := 5, questionpool := 4, timeLimit := 1,
    userSessions := [{ user := 5, startedAt := some 0, completed := false, score := none }],
    startedUsers := [5] }

/-- Unlocked in-progress submission for `taskT` started at 0. -/
def subT : Submission :=
  { oid := 8, task := 7, user := 5, startedAt := 0, completedAt := none,
    timeSpent := none, answers := [], score := 0, correctAnswers := 0,
    totalQuestions := 0, percentageScore := 0, isLocked := false,
    status := .inProgress, currentQuestionIndex := 0 }

/-- State for the time-limit runs. -/
def dbTime : DB :=
  { users := [{ oid := 5, roadmap := [], completedlesson := [], task := [7] }],
    lessons := [], categories := [], stages := [], roadmaps := [],
    questionPools := [], tasks := [taskT], submissions := [subT], nextId := 60 }

/-- Pool with three multiple-choice questions for generation runs. -/
def poolGen : QuestionPool :=
  { oid := 4, category := 1, isActive := true, tasks := [],
    questions := [
      { oid := 101, questionText := "q1", questionType := .multipleChoice,
        options := [{ oid := 211, optId := "a", text := "A" },
                    { oid := 212, optId := "b", text := "B" }],
        correctAnswers := ["a"], allowMultipleAnswers := false, points := 1 },
      { oid := 102, questionText := "q2", questionType := .multipleChoice,
        options := [{ oid := 213, optId := "a", text := "A" },
                    { oid := 214, optId := "b", text := "B" }],
        correctAnswers := ["b"], allowMultipleAnswers := false, points := 1 },
      { oid := 103, questionText := "q3", questionType := .multipleChoice,
        options := [{ oid := 215, optId := "a", text := "A" },
                    { oid := 216, optId := "b", text := "B" }],
        correctAnswers := ["a"], allowMultipleAnswers := false, points := 1 }] }

/-- State for a successful generation: `quizQuestionCount = 2`, three
candidates. -/
def dbGen : DB :=
  { users := [{ oid := 5, roadmap := [1], completedlesson := [], task := [] }],
    lessons := [],
    categories := [{ oid := 1, title := "C", stage := 1, roadmap := 1, lesson := [],
                     task := [], quizQuestionCount := 2, questionpool := [4] }],
    stages := [], roadmaps := [], questionPools := [poolGen], tasks := [],
    submissions := [], nextId := 70 }

/-- State for a completion whose category finishes but has no active
question pool, so generation fails after the completion write. -/
def dbGenFail : DB :=
  { users := [{ oid := 5, roadmap := [1], completedlesson := [], task := [] }],
    lessons := [{ oid := 21, title := "L", category := 1, stage := 1, roadmap := 1,
                  lecture_number := 1, completedby := [] }],
    categories := [{ oid := 1, title := "C", stage := 1, roadmap := 1, lesson := [21],
                     task := [], quizQuestionCount := 10, questionpool := [] }],
    stages := [{ oid := 1, title := "S", roadmap := 1, order := 1 }],
    roadmaps := [{ oid := 1 }], questionPools := [], tasks := [],
    submissions := [], nextId := 80 }

/-- State in which the user already completed the only lesson. -/
def dbDone : DB :=
  { users := [{ oid := 5, roadmap := [1], completedlesson := [21], task := [] }],
    lessons := [{ oid := 21, title := "L", category := 1, stage := 1, roadmap := 1,
                  lecture_number := 1, completedby := [5] }],
    categories := [{ oid := 1, title := "C", stage := 1, roadmap := 1, lesson := [21],
                     task := [], quizQuestionCount := 10, questionpool := [] }],
    stages := [{ oid := 1, title := "S", roadmap := 1, order := 1 }],
    roadmaps := [{ oid := 1 }], questionPools := [], tasks := [],
    submissions := [], nextId := 80 }

/-- State whose lesson collection stores the lesson with `lecture_number` 2
before the one with `lecture_number` 1 inside the same category. -/
def dbSwap : DB :=
  { users := [{ oid := 5, roadmap := [1], completedlesson := [], task := [] }],
    lessons := [{ oid := 32, title := "L2", category := 1, stage := 1, roadmap := 1,
                  lecture_number := 2, completedby := [] },
                { oid := 31, title := "L1", category := 1, stage := 1, roadmap := 1,
                  lecture_number := 1, completedby := [] }],
    categories := [{ oid := 1, title := "C", stage := 1, roadmap := 1, lesson := [31, 32],
                     task := [], quizQuestionCount := 10, questionpool := [] }],
    stages := [{ oid := 1, title := "S", roadmap := 1, order := 1 }],
    roadmaps := [{ oid := 1 }], questionPools := [], tasks := [],
    submissions := [], nextId := 90 }

/-- The user document stored in `dbSwap`. -/
def userSwap : User :=
  { oid := 5, roadmap := [1], completedlesson := [], task := [] }

/-- State with a pending task and an existing unlocked submission for the
same (task, user) pair, the interleaving point of two concurrent starts. -/
def dbStart : DB :=
  { users := [{ oid := 5, roadmap := [], completedlesson := [], task := [1] }],
    lessons := [], categories := [], stages := [], roadmaps := [],
    questionPools := [],
    tasks := [{ oid := 1, title := "T", status := .pending, questions := [],
                totalPoints := 0, category := 3, user := 5, questionpool := 4,
                timeLimit := 60, userSessions := [], startedUsers := [] }],
    submissions := [{ oid := 2, task := 1, user := 5, startedAt := 0,
                      completedAt := none, timeSpent := none, answers := [],
                      score := 0, correctAnswers := 0, totalQuestions := 0,
                      percentageScore := 0, isLocked := false,
                      status := .inProgress, currentQuestionIndex := 0 }],
    nextId := 95 }

/-- State whose category references one lesson twice. -/
def dbDup : DB :=
  { users := [{ oid := 5, roadmap := [1], completedlesson := [21], task := [] }],
    lessons := [{ oid := 21, title := "L", category := 9, stage := 1, roadmap := 1,
                  lecture_number := 1, completedby := [5] }],
    categories := [{ oid := 9, title := "C", stage := 1, roadmap := 1, lesson := [21, 21],
                     task := [], quizQuestionCount := 10, questionpool := [] }],
    stages := [], roadmaps := [], questionPools := [], tasks := [],
    submissions := [], nextId := 99 }

/-- The category document stored in `dbDup`. -/
def catDup : Category :=
  { oid := 9, title := "C", stage := 1, roadmap := 1, lesson := [21, 21],
    task := [], quizQuestionCount := 10, questionpool := [] }

/-- The category document stored in `dbTwo`. -/
def catTwo : Category :=
  { oid := 9, title := "C", stage := 1, roadmap := 1, lesson := [21, 22],
    task := [], quizQuestionCount := 10, questionpool := [] }

/-- The category document stored in `dbGen`. -/
def catGen : Category :=
  { oid := 1, title := "C", stage := 1, roadmap := 1, lesson := [],
    task := [], quizQuestionCount := 2, questionpool := [4] }

/-- State whose category references two distinct lessons, both completed. -/
def dbTwo : DB :=
  { users := [{ oid := 5, roadmap := [1], completedlesson := [21, 22], task := [] }],
    lessons := [{ oid := 21, title := "L1", category := 9, stage := 1, roadmap := 1,
                  lecture_number := 1, completedby := [5] },
                { oid := 22, title := "L2", category := 9, stage := 1, roadmap := 1,
                  lecture_number := 2, completedby := [5] }],
    categories := [{ oid := 9, title := "C", stage := 1, roadmap := 1, lesson := [21, 22],
                     task := [], quizQuestionCount := 10, questionpool := [] }],
    stages := [], roadmaps := [], questionPools := [], tasks := [],
    submissions := [], nextId := 99 }

/-! ### Helper lemmas and claim theorems -/

theorem questionScoredCorrect_iff (A : List Answer) (q : TaskQuestion) :
    questionScoredCorrect A q = true ↔ specQuestionCorrect A q := by
  unfold questionScoredCorrect specQuestionCorrect
  cases h : A.find? (fun e => decide (e.questionId = q.oid)) with
  | none => simp [h]
  | some a =>
    simp only [h, Option.some.injEq, exists_eq_left']
    cases hm : q.allowMultipleAnswers with
    | true =>
      simp only [if_true, true_and, Bool.true_eq_false, false_and, or_false]
      unfold specMultiCorrect
      simp only [List.all_eq_true, Bool.and_eq_true, List.elem_iff]
      constructor
      · rintro ⟨h1, h2⟩ x
        exact ⟨fun hx => h2 x hx, fun hx => h1 x hx⟩
      · intro hiff
        exact ⟨fun x hx => (hiff x).mpr hx, fun x hx => (hiff x).mp hx⟩
    | false =>
      simp only [if_false, Bool.false_eq_true, false_and, true_and, false_or]
      unfold specSingleCorrect
      cases hs : a.selectedOptions with
      | nil => simp [hs]
      | cons u rest =>
        cases rest with
        | nil => simp [hs, List.elem_iff]
        | cons v tl => simp [hs]

theorem percentageOf_eq_specPercentage (c t : Nat) :
    percentageOf c t = specPercentage c t := by
  unfold percentageOf specPercentage
  rcases Nat.eq_zero_or_pos t with h | h
  · simp [h]
  · have ht : t ≠ 0 := Nat.pos_iff_ne_zero.mp h
    rw [if_neg ht, if_neg ht]
    have htq : (t : ℚ) ≠ 0 := Nat.cast_ne_zero.mpr ht
    have hcast : ((c : ℚ) * 100) / t + 1 / 2 = ((200 * c + t : ℕ) : ℚ) / ((2 * t : ℕ) : ℚ) := by
      push_cast
      field_simp
      ring
    rw [hcast, Nat.floor_div_nat, Nat.floor_natCast]

/-- Facts the graded branch of `submitQuiz` establishes about its output. -/
theorem submitQuiz_graded_eq {userId taskId : Oid} {answers : List IncomingAnswer}
    {now : Nat} {db db2 : DB} {task : Task} {sc mx pct : Nat} {sub : Submission}
    (hT : findTask db taskId = some task)
    (hrun : submitQuiz userId taskId answers now db = (.graded sc mx pct sub, db2)) :
    ∃ stored : List Answer,
      sub.answers = mergeAnswers stored answers ∧
      sc = task.questions.countP (questionScoredCorrect sub.answers) ∧
      sub.score = sc ∧ sub.correctAnswers = sc ∧
      mx = task.questions.length ∧ sub.totalQuestions = mx ∧
      pct = percentageOf sc mx ∧ sub.percentageScore = pct := by
  simp only [submitQuiz, hT] at hrun
  split at hrun
  · simp at hrun
  · split at hrun
    · simp at hrun
    · split at hrun
      · simp at hrun
      · rw [Prod.mk.injEq] at hrun
        obtain ⟨h1, h2⟩ := hrun
        rw [SubmitResult.graded.injEq] at h1
        obtain ⟨hsc, hmx, hpct, hsub⟩ := h1
        subst hsc hmx hpct hsub
        exact ⟨_, rfl, rfl, rfl, rfl, rfl, rfl, rfl, rfl⟩


/-- C4: in the graded (non-expired) path of submitQuiz, each question of
the task snapshot is scored correct per the single-answer rule (exactly
one selected option, among correctAnswers) or the multi-answer rule
(selected set equals correct set exactly), an unanswered question is
incorrect, score and correctAnswers both equal the count of correct
questions, totalQuestions is the snapshot length, and percentageScore is
round(correct / total * 100) with 0 when total = 0. -/
theorem submit_quiz_grading_spec {userId taskId : Oid} {answers : List IncomingAnswer}
    {now : Nat} {db db2 : DB} {task : Task} {sc mx pct : Nat} {sub : Submission}
    (hT : findTask db taskId = some task)
    (hrun : submitQuiz userId taskId answers now db = (.graded sc mx pct sub, db2)) :
    (∀ q ∈ task.questions,
      (questionScoredCorrect sub.answers q = true ↔ specQuestionCorrect sub.answers q))
    ∧ sub.correctAnswers = task.questions.countP (questionScoredCorrect sub.answers)
    ∧ sub.score = sub.correctAnswers ∧ sc = sub.correctAnswers
    ∧ sub.totalQuestions = task.questions.length ∧ mx = sub.totalQuestions
    ∧ sub.percentageScore = specPercentage sub.correctAnswers sub.totalQuestions
    ∧ pct = sub.percentageScore := by
  obtain ⟨stored, _hm, hsc, hscore, hca, hmx, htot, hpct, hp2⟩ := submitQuiz_graded_eq hT hrun
  refine ⟨fun q _ => questionScoredCorrect_iff _ q, ?_, ?_, ?_, ?_, ?_, ?_, ?_⟩
  · rw [hca, hsc]
  · rw [hscore, hca]
  · rw [hca]
  · rw [htot, hmx]
  · rw [htot]
  · rw [hp2, hpct, hca, htot, hmx, percentageOf_eq_specPercentage]
  · rw [hp2]

/-- C4 witness: a concrete graded run. -/
theorem submit_quiz_grading_spec_witness :
    ∃ sub db2,
      submitQuiz 5 1 [{ questionId := 101, selectedOptionIds := [11] }] 0 dbGrade
        = (SubmitResult.graded 1 2 50 sub, db2)
      ∧ sub.percentageScore = specPercentage sub.correctAnswers sub.totalQuestions
      ∧ sub.score = sub.correctAnswers := by
  obtain ⟨sub, db2, hrun⟩ :
      ∃ s d, submitQuiz 5 1 [{ questionId := 101, selectedOptionIds := [11] }] 0 dbGrade
        = (SubmitResult.graded 1 2 50 s, d) := ⟨_, _, rfl⟩
  have hT : findTask dbGrade 1 = some taskG := rfl
  have h := submit_quiz_grading_spec hT hrun
  exact ⟨sub, db2, hrun, h.2.2.2.2.2.2.1, h.2.2.1⟩


theorem exists_qid_mapFirst {p : Answer → Bool} {f : Answer → Answer}
    (hf : ∀ e, (f e).questionId = e.questionId) {l : List Answer} {k : Oid}
    (h : ∃ e ∈ l, e.questionId = k) :
    ∃ e2 ∈ mapFirst p f l, e2.questionId = k := by
  induction l with
  | nil => simp at h
  | cons x rest ih =>
    obtain ⟨e, he, hek⟩ := h
    unfold mapFirst
    by_cases hp : p x
    · simp only [hp, if_true]
      rcases List.mem_cons.mp he with rfl | hr
      · exact ⟨f e, List.mem_cons_self .., (hf e).trans hek⟩
      · exact ⟨e, List.mem_cons_of_mem _ hr, hek⟩
    · simp only [hp, if_false]
      rcases List.mem_cons.mp he with rfl | hr
      · exact ⟨e, List.mem_cons_self .., hek⟩
      · obtain ⟨e2, he2, hk2⟩ := ih ⟨e, hr, hek⟩
        exact ⟨e2, List.mem_cons_of_mem _ he2, hk2⟩

theorem exists_qid_mergeOne {acc : List Answer} {a : IncomingAnswer} {k : Oid}
    (h : (∃ e ∈ acc, e.questionId = k) ∨ k = a.questionId) :
    ∃ e2 ∈ mergeOne acc a, e2.questionId = k := by
  unfold mergeOne
  by_cases hany : acc.any (fun e => decide (e.questionId = a.questionId))
  · simp only [hany, if_true]
    rcases h with hacc | rfl
    · refine exists_qid_mapFirst (fun e => ?_) hacc
      rfl
    · obtain ⟨e, he, hek⟩ := List.any_eq_true.mp hany
      refine exists_qid_mapFirst (fun e => ?_) ⟨e, he, of_decide_eq_true hek⟩
      rfl
  · simp only [hany, if_false]
    rcases h with ⟨e, he, hek⟩ | rfl
    · exact ⟨e, List.mem_append_left _ he, hek⟩
    · exact ⟨_, List.mem_append_right _ (List.mem_singleton.mpr rfl), rfl⟩

theorem exists_qid_mergeAnswers {stored : List Answer} {incoming : List IncomingAnswer} {k : Oid}
    (h : (∃ e ∈ stored, e.questionId = k) ∨ ∃ a ∈ incoming, a.questionId = k) :
    ∃ e2 ∈ mergeAnswers stored incoming, e2.questionId = k := by
  induction incoming generalizing stored with
  | nil =>
    rcases h with h | h
    · exact h
    · simp at h
  | cons a rest ih =>
    show ∃ e2 ∈ mergeAnswers (mergeOne stored a) rest, e2.questionId = k
    rcases h with h | h
    · exact ih (Or.inl (exists_qid_mergeOne (Or.inl h)))
    · obtain ⟨a2, ha2, hk2⟩ := h
      rcases List.mem_cons.mp ha2 with rfl | hr
      · exact ih (Or.inl (exists_qid_mergeOne (Or.inr hk2.symm)))
      · exact ih (Or.inr ⟨a2, hr, hk2⟩)

theorem find?_qid_filter_agnostic {p : Answer → Bool} {k : Oid}
    (hp : ∀ e : Answer, e.questionId = k → p e = true) (A : List Answer) :
    (A.filter p).find? (fun a => decide (a.questionId = k))
      = A.find? (fun a => decide (a.questionId = k)) := by
  induction A with
  | nil => rfl
  | cons e rest ih =>
    by_cases hk : e.questionId = k
    · simp [List.filter_cons, hp e hk, List.find?_cons, hk]
    · cases hpe : p e with
      | false => simp [List.filter_cons, hpe, List.find?_cons, hk, ih]
      | true => simp [List.filter_cons, hpe, List.find?_cons, hk, ih]

/-- C10: in a graded submitQuiz call every submitted answer is merged into
the stored answers whether or not its questionId matches a snapshot
question, and the score is already determined by the answers whose
questionId occurs in the snapshot: restricting the stored answers to
those question ids leaves the correct count unchanged. -/
theorem submit_quiz_stores_extraneous {userId taskId : Oid} {answers : List IncomingAnswer}
    {now : Nat} {db db2 : DB} {task : Task} {sc mx pct : Nat} {sub : Submission}
    (hT : findTask db taskId = some task)
    (hrun : submitQuiz userId taskId answers now db = (.graded sc mx pct sub, db2)) :
    (∀ a ∈ answers, ∃ e ∈ sub.answers, e.questionId = a.questionId)
    ∧ sub.correctAnswers = task.questions.countP (questionScoredCorrect
        (sub.answers.filter (fun e => task.questions.any (fun q2 => decide (q2.oid = e.questionId))))) := by
  obtain ⟨stored, hm, hsc, _hscore, hca, _, _, _, _⟩ := submitQuiz_graded_eq hT hrun
  constructor
  · intro a ha
    rw [hm]
    exact exists_qid_mergeAnswers (Or.inr ⟨a, ha, rfl⟩)
  · rw [hca, hsc]
    refine List.countP_congr (fun q hq => ?_)
    unfold questionScoredCorrect
    rw [find?_qid_filter_agnostic (fun e he => ?_)]
    exact List.any_eq_true.mpr ⟨q, hq, decide_eq_true he.symm⟩

/-- C10 witness: a run with an extraneous answer (questionId 999). -/
theorem submit_quiz_stores_extraneous_witness :
    ∃ sub db2,
      submitQuiz 5 1 [{ questionId := 101, selectedOptionIds := [11] },
          { questionId := 999, selectedOptionIds := [3] }] 0 dbGrade
        = (SubmitResult.graded 1 2 50 sub, db2)
      ∧ (∃ e ∈ sub.answers, e.questionId = 999)
      ∧ sub.correctAnswers = taskG.questions.countP (questionScoredCorrect
          (sub.answers.filter (fun e => taskG.questions.any (fun q2 => decide (q2.oid = e.questionId))))) := by
  obtain ⟨sub, db2, hrun⟩ :
      ∃ s d, submitQuiz 5 1 [{ questionId := 101, selectedOptionIds := [11] },
          { questionId := 999, selectedOptionIds := [3] }] 0 dbGrade
        = (SubmitResult.graded 1 2 50 s, d) := ⟨_, _, rfl⟩
  have hT : findTask dbGrade 1 = some taskG := rfl
  have h := submit_quiz_stores_extraneous hT hrun
  exact ⟨sub, db2, hrun,
    h.1 { questionId := 999, selectedOptionIds := [3] } (by simp), h.2⟩


/-- C8: the result of submitQuiz (its score, correctAnswers and
percentageScore included) does not depend on the question pools: two
states that differ only in the questionPools collection produce the same
result. -/
theorem submit_quiz_pool_independent (userId taskId : Oid) (answers : List IncomingAnswer)
    (now : Nat) (db : DB) (pools : List QuestionPool) :
    (submitQuiz userId taskId answers now { db with questionPools := pools }).1
      = (submitQuiz userId taskId answers now db).1 := by
  cases db with
  | mk us ls cs ss rs qp ts sb ni =>
    unfold submitQuiz findTask findSubmission
    dsimp only
    cases List.find? (fun t => decide (t.oid = taskId)) ts with
    | none => rfl
    | some task =>
      split
      · rfl
      · cases List.find? (fun s => decide (s.task = taskId ∧ s.user = userId)) sb with
        | none => repeat (first | rfl | split)
        | some s => repeat (first | rfl | split)


theorem saveSubmission_tasks (db : DB) (s : Submission) :
    (saveSubmission db s).tasks = db.tasks := by
  unfold saveSubmission
  split <;> rfl

theorem find?_replace_of_find? {l : List Task} {id : Oid} {t tNew : Task}
    (h : l.find? (fun x => decide (x.oid = id)) = some t) (hoid : tNew.oid = t.oid) :
    (l.map (fun x => if x.oid = tNew.oid then tNew else x)).find?
        (fun x => decide (x.oid = id)) = some tNew := by
  have hp := List.find?_some h
  have htid : t.oid = id := of_decide_eq_true hp
  induction l with
  | nil => simp at h
  | cons x rest ih =>
    cases hdx : decide (x.oid = id) with
    | true =>
      simp only [List.find?_cons, hdx, Option.some.injEq] at h
      have hx : x.oid = id := of_decide_eq_true hdx
      have hc : x.oid = tNew.oid := by rw [hoid, ← h]
      rw [List.map_cons, if_pos hc, List.find?_cons,
        (by simp [hoid, htid] : decide (tNew.oid = id) = true)]
    | false =>
      simp only [List.find?_cons, hdx] at h
      have hx : ¬ x.oid = id := of_decide_eq_false hdx
      have hc : ¬ x.oid = tNew.oid := fun hEq => hx (hEq.trans (hoid.trans htid))
      simp [List.map_cons, if_neg hc, List.find?_cons, hdx, ih h]

theorem exists_completed_mapFirst {ss : List UserSession} {uid : Oid} {sess : UserSession}
    {f : UserSession → UserSession}
    (h : ss.find? (fun s => decide (s.user = uid)) = some sess)
    (hu : ∀ s, (f s).user = s.user) (hc : ∀ s, (f s).completed = true) :
    ∃ s2 ∈ mapFirst (fun s => decide (s.user = uid)) f ss,
      s2.user = uid ∧ s2.completed = true := by
  induction ss with
  | nil => simp at h
  | cons x rest ih =>
    cases hdx : decide (x.user = uid) with
    | true =>
      unfold mapFirst
      rw [if_pos hdx]
      exact ⟨f x, List.mem_cons_self .., (hu x).trans (of_decide_eq_true hdx), hc x⟩
    | false =>
      simp only [List.find?_cons, hdx] at h
      unfold mapFirst
      rw [if_neg (by simp [hdx])]
      obtain ⟨s2, hs2, hprop⟩ := ih h
      exact ⟨s2, List.mem_cons_of_mem _ hs2, hprop⟩

/-- C5: for a submitQuiz call on an unlocked submission, expiry triggers
iff the elapsed time strictly exceeds the time limit (elapsed in
milliseconds against timeLimit * 60000; submitting at exactly the limit
is graded in-time); on expiry the submission is finalized as expired and
locked with completedAt set and timeSpent = timeLimit * 60 seconds, the
answers are not merged and no scoring occurs, and the task session is
marked completed; checkQuizTimeLimit reports shouldAutoSubmit with
timeRemaining 0 under the same strict-greater condition. -/
theorem submit_quiz_time_limit (userId taskId : Oid) (answers : List IncomingAnswer)
    (now : Nat) {db : DB} {task : Task} {sub : Submission} {sess : UserSession}
    (hT : findTask db taskId = some task)
    (hAssigned : task.user = userId)
    (hS : findSubmission db taskId userId = some sub)
    (hNL : sub.isLocked = false)
    (hTS : task.status = TaskStatus.inProgress)
    (hFS : task.userSessions.find? (fun s => decide (s.user = userId)) = some sess)
    (hSA : sess.startedAt = some sub.startedAt)
    (hNC : sess.completed = false) :
    (isExpiredResult (submitQuiz userId taskId answers now db).1 = true
        ↔ now - sub.startedAt > task.timeLimit * 60000)
    ∧ (now - sub.startedAt > task.timeLimit * 60000 →
        ∃ subE db2, submitQuiz userId taskId answers now db = (.expired subE, db2)
          ∧ subE.status = SubStatus.expired ∧ subE.isLocked = true
          ∧ subE.completedAt = some now
          ∧ subE.timeSpent = some (task.timeLimit * 60)
          ∧ subE.answers = sub.answers
          ∧ subE.score = sub.score ∧ subE.correctAnswers = sub.correctAnswers
          ∧ subE.percentageScore = sub.percentageScore
          ∧ ∃ task2, findTask db2 taskId = some task2
              ∧ task2.status = TaskStatus.completed
              ∧ ∃ s2 ∈ task2.userSessions, s2.user = userId ∧ s2.completed = true)
    ∧ (shouldAutoSubmit (checkQuizTimeLimit userId taskId now db) = true
        ↔ now - sub.startedAt > task.timeLimit * 60000)
    ∧ (now - sub.startedAt > task.timeLimit * 60000 →
        timeRemainingOf (checkQuizTimeLimit userId taskId now db) = some 0) := by
  have hne : ¬ task.user ≠ userId := by simp [hAssigned]
  have hcheck : checkQuizTimeLimit userId taskId now db
      = if now - sub.startedAt > task.timeLimit * 60000 then TimeCheckResult.autoSubmit
        else TimeCheckResult.stillRunning (task.timeLimit * 60000 - (now - sub.startedAt)) := by
    simp [checkQuizTimeLimit, hT, hTS, hFS, hSA, hNC]
  refine ⟨?_, ?_, ?_, ?_⟩
  · by_cases hgt : now - sub.startedAt > task.timeLimit * 60000
    · simp [submitQuiz, hT, hne, hS, hNL, hgt, isExpiredResult]
    · simp [submitQuiz, hT, hne, hS, hNL, hgt, isExpiredResult]
  · intro hgt
    let subE : Submission :=
      { sub with
        status := SubStatus.expired, isLocked := true,
        completedAt := some now, timeSpent := some (task.timeLimit * 60) }
    let taskE : Task :=
      { task with
        status := TaskStatus.completed,
        userSessions := mapFirst (fun s => decide (s.user = userId))
          (fun s => { s with completed := true }) task.userSessions }
    refine ⟨subE, saveTask (saveSubmission db subE) taskE,
      ?_, rfl, rfl, rfl, rfl, rfl, rfl, rfl, rfl, ?_⟩
    · simp [submitQuiz, hT, hS, hne, hNL, hgt]
    · refine ⟨taskE, ?_, rfl, ?_⟩
      · unfold findTask saveTask
        dsimp only
        rw [saveSubmission_tasks]
        exact find?_replace_of_find? hT (show taskE.oid = task.oid from rfl)
      · exact exists_completed_mapFirst hFS (fun s => rfl) (fun s => rfl)
  · rw [hcheck]
    by_cases hgt : now - sub.startedAt > task.timeLimit * 60000
    · simp [hgt, shouldAutoSubmit]
    · simp [hgt, shouldAutoSubmit]
  · intro hgt
    rw [hcheck]
    simp [hgt, timeRemainingOf]


/-- C5 witness: a run one millisecond past the limit. -/
theorem submit_quiz_time_limit_witness :
    (isExpiredResult (submitQuiz 5 7 [] 60001 dbTime).1 = true
        ↔ 60001 - subT.startedAt > taskT.timeLimit * 60000)
    ∧ timeRemainingOf (checkQuizTimeLimit 5 7 60001 dbTime) = some 0 := by
  have hT : findTask dbTime 7 = some taskT := rfl
  have hS : findSubmission dbTime 7 5 = some subT := rfl
  have hFS : taskT.userSessions.find? (fun s => decide (s.user = 5))
      = some { user := 5, startedAt := some 0, completed := false, score := none } := rfl
  have h := submit_quiz_time_limit 5 7 [] 60001 hT rfl hS rfl rfl hFS rfl rfl
  exact ⟨h.1, h.2.2.2 (by decide)⟩


/-- C6 (amended): the partial unique index on (task, user, isLocked=false)
keeps at most one unlocked submission per (task, user) — startQuiz
preserves the invariant and a second start whose insert hits the
uniqueness violation fails deterministically with no state change — but
the failure surfaces as a generic 500 server error, not a 409 Conflict,
because startQuiz has no duplicate-key handler. -/
theorem start_quiz_active_unique (userId taskId : Oid) (now : Nat) {db : DB}
    (h : atMostOneActive db) :
    atMostOneActive (startQuiz userId taskId now db).2
    ∧ (∀ task, findTask db taskId = some task → task.user = userId →
        task.status = TaskStatus.pending → hasActiveSubmission db taskId userId = true →
        startQuiz userId taskId now db = (.serverError, db)) := by
  constructor
  · unfold startQuiz
    cases hT : findTask db taskId with
    | none => exact h
    | some task =>
      dsimp only
      split
      · exact h
      · split
        · exact h
        · cases hact : hasActiveSubmission db taskId userId with
          | true => simp only [if_true]; exact h
          | false =>
            simp only [Bool.false_eq_true, if_false]
            unfold atMostOneActive
            show List.Pairwise _ (db.submissions ++ [_])
            rw [List.pairwise_append]
            refine ⟨h, List.pairwise_singleton .., ?_⟩
            intro a ha b hb
            rw [List.mem_singleton] at hb
            subst hb
            have hall : ∀ x ∈ db.submissions, x.task = taskId → x.user = userId →
                x.isLocked = true := by
              simpa [hasActiveSubmission] using hact
            by_cases h1 : a.task = taskId
            · by_cases h2 : a.user = userId
              · exact Or.inl (hall a ha h1 h2)
              · exact Or.inr (Or.inr (Or.inr h2))
            · exact Or.inr (Or.inr (Or.inl h1))
  · intro task hT hu hst hact
    unfold startQuiz
    rw [hT]
    dsimp only
    rw [if_neg (by simp [hu]), if_neg (by simp [hst]), if_pos hact]


/-- C6 witness: the invariant and the 500 on a concrete conflicting state. -/
theorem start_quiz_active_unique_witness :
    atMostOneActive (startQuiz 5 1 0 dbStart).2
    ∧ startQuiz 5 1 0 dbStart = (StartResult.serverError, dbStart) := by
  have h : atMostOneActive dbStart := by
    unfold atMostOneActive dbStart
    simp
  have hh := start_quiz_active_unique 5 1 0 h
  exact ⟨hh.1, hh.2 _ rfl rfl rfl rfl⟩

/-- C6 counterexample: with a pending task and an existing unlocked
submission for the same (task, user), startQuiz returns the generic 500
server error, not a 409 Conflict as the claim states. -/
theorem start_quiz_conflict_counterexample :
    hasActiveSubmission dbStart 1 5 = true
    ∧ startQuiz 5 1 0 dbStart = (StartResult.serverError, dbStart)
    ∧ startStatus (startQuiz 5 1 0 dbStart).1 = 500
    ∧ startStatus (startQuiz 5 1 0 dbStart).1 ≠ 409 := by
  refine ⟨rfl, rfl, rfl, by decide⟩

/-- C9 (amended): checkCategoryCompletion compares the count of matching
lesson documents with the number of resolved references; when the
references are distinct and the lesson collection has distinct ids, its
isCompleted is true iff every referenced lesson has the user in its
completedby set. -/
theorem check_category_completion_iff {db : DB} {userId catId : Oid} {cat : Category}
    (hC : findCategory db catId = some cat)
    (hne : populatedLessons db cat ≠ [])
    (hnodupRefs : ((populatedLessons db cat).map (fun l => l.oid)).Nodup)
    (hnodupDb : (db.lessons.map (fun l => l.oid)).Nodup) :
    ∃ b cc tc, checkCategoryCompletion userId catId db = CheckResult.ok b cc tc
      ∧ (b = true ↔ ∀ l ∈ populatedLessons db cat, l.completedby.contains userId = true) := by
  unfold checkCategoryCompletion
  rw [hC]
  dsimp only
  rw [if_neg (by simpa [List.isEmpty_iff] using hne)]
  refine ⟨_, _, _, rfl, ?_⟩
  rw [decide_eq_true_eq]
  have hsub : ∀ l ∈ populatedLessons db cat, l ∈ db.lessons := by
    intro l hl
    obtain ⟨ref, _href, hfind⟩ := List.mem_filterMap.mp hl
    exact List.mem_of_find?_eq_some hfind
  have hinj := List.inj_on_of_nodup_map hnodupDb
  have hmem : ∀ l ∈ db.lessons,
      (((populatedLessons db cat).map (fun x => x.oid)).contains l.oid = true ↔
        l ∈ populatedLessons db cat) := by
    intro l hl
    constructor
    · intro hc
      obtain ⟨l2, hl2, hoid⟩ := List.mem_map.mp (List.elem_iff.mp hc)
      have heq : l2 = l := hinj (hsub l2 hl2) hl hoid
      rwa [← heq]
    · intro hmem2
      exact List.elem_iff.mpr (List.mem_map.mpr ⟨l, hmem2, rfl⟩)
  have hfe : db.lessons.filter
        (fun l => ((populatedLessons db cat).map (fun x => x.oid)).contains l.oid
          && l.completedby.contains userId)
      = db.lessons.filter
        (fun l => decide (l ∈ populatedLessons db cat) && l.completedby.contains userId) := by
    refine List.filter_congr (fun l hl => ?_)
    by_cases hp : l ∈ populatedLessons db cat
    · rw [(hmem l hl).mpr hp, decide_eq_true hp]
    · have hcf : ¬ (((populatedLessons db cat).map (fun x => x.oid)).contains l.oid = true) :=
        fun hcc => hp ((hmem l hl).mp hcc)
      rw [Bool.not_eq_true] at hcf
      rw [hcf, decide_eq_false hp]
  have hperm : (db.lessons.filter
        (fun l => decide (l ∈ populatedLessons db cat) && l.completedby.contains userId)).Perm
      ((populatedLessons db cat).filter (fun l => l.completedby.contains userId)) := by
    refine (List.perm_ext_iff_of_nodup ?_ ?_).mpr ?_
    · exact List.Nodup.filter _ (List.Nodup.of_map _ hnodupDb)
    · exact List.Nodup.filter _ (List.Nodup.of_map _ hnodupRefs)
    · intro a
      simp only [List.mem_filter, Bool.and_eq_true, decide_eq_true_eq]
      constructor
      · rintro ⟨_, ⟨hp, hc⟩⟩
        exact ⟨hp, hc⟩
      · rintro ⟨hp, hc⟩
        exact ⟨hsub a hp, ⟨hp, hc⟩⟩
  rw [hfe, hperm.length_eq, List.length_map, ← List.countP_eq_length_filter]
  exact List.countP_eq_length

/-- C9 witness: a category with two distinct completed lessons. -/
theorem check_category_completion_iff_witness :
    ∃ b cc tc, checkCategoryCompletion 5 9 dbTwo = CheckResult.ok b cc tc
      ∧ (b = true ↔ ∀ l ∈ populatedLessons dbTwo catTwo,
          l.completedby.contains 5 = true) := by
  exact check_category_completion_iff rfl (by decide) (by decide) (by decide)

/-- C9 counterexample: a category referencing the same lesson twice
reports isCompleted = false although every lesson it references has the
user in completedby, refuting the claimed iff — the source compares
counts, and the duplicated reference double-counts. -/
theorem check_category_completion_dup_counterexample :
    findCategory dbDup 9 = some catDup
    ∧ populatedLessons dbDup catDup ≠ []
    ∧ (∀ l ∈ populatedLessons dbDup catDup, l.completedby.contains 5 = true)
    ∧ checkCategoryCompletion 5 9 dbDup = CheckResult.ok false 1 2 := by
  refine ⟨rfl, by decide, by decide, rfl⟩


theorem selectLoop_spec {cand : List PoolQuestion} {count : Nat} :
    ∀ (picks : List Nat) (acc : List PoolQuestion),
      acc.length ≤ count → (acc.map (fun q => q.oid)).Nodup →
      ∀ {sel : List PoolQuestion}, selectLoop cand count picks acc = some sel →
      sel.length = count ∧ (sel.map (fun q => q.oid)).Nodup := by
  intro picks
  induction picks with
  | nil =>
    intro acc hle hnd sel hsel
    unfold selectLoop at hsel
    split at hsel
    · obtain rfl : acc = sel := by injection hsel
      exact ⟨le_antisymm hle (by assumption), hnd⟩
    · simp at hsel
  | cons i rest ih =>
    intro acc hle hnd sel hsel
    unfold selectLoop at hsel
    split at hsel
    · obtain rfl : acc = sel := by injection hsel
      exact ⟨le_antisymm hle (by assumption), hnd⟩
    · rename_i hnotle
      split at hsel
      · simp at hsel
      · rename_i pick hpick
        split at hsel
        · exact ih acc hle hnd hsel
        · rename_i hany
          refine ih (acc ++ [pick]) ?_ ?_ hsel
          · have : acc.length < count := Nat.lt_of_not_le hnotle
            simpa [List.length_append] using this
          · have hnotin : pick.oid ∉ acc.map (fun q => q.oid) := by
              intro hmem
              obtain ⟨q, hq, hoid⟩ := List.mem_map.mp hmem
              exact hany (List.any_eq_true.mpr ⟨q, hq, decide_eq_true hoid⟩)
            simp [List.map_append, List.nodup_append, hnd, hnotin]


/-- C3: generateTaskFromQuestionPool fails when the candidates are fewer
than the quiz question count, and a generated task has exactly that many
questions with pairwise-distinct ids. -/
theorem generate_task_question_count {userId catId : Oid} {picks : List Nat} {db db2 : DB}
    {r : GenResult}
    (hrun : generateTaskFromQuestionPool userId catId picks db = some (r, db2)) :
    (∀ cat, findCategory db catId = some cat →
      (candidateQuestions db catId).length < effectiveQuizCount cat →
      ∃ msg, r = GenResult.failure msg)
    ∧ (∀ t, r = GenResult.ok t →
        ∃ cat, findCategory db catId = some cat
          ∧ t.questions.length = effectiveQuizCount cat
          ∧ (t.questions.map (fun q => q.oid)).Nodup) := by
  unfold generateTaskFromQuestionPool at hrun
  by_cases hpe : (activePoolsOf db catId).isEmpty = true
  · rw [if_pos hpe] at hrun
    injection hrun with h
    injection h with h1 h2
    subst h1
    exact ⟨fun cat hc hlt => ⟨_, rfl⟩, fun t ht => nomatch ht⟩
  · rw [if_neg hpe] at hrun
    cases hcat : findCategory db catId with
    | none =>
      simp only [hcat] at hrun
      injection hrun with h
      injection h with h1 h2
      subst h1
      exact ⟨fun cat hc hlt => ⟨_, rfl⟩, fun t ht => nomatch ht⟩
    | some category =>
      simp only [hcat] at hrun
      cases hhd : category.questionpool.head? with
      | none =>
        simp only [hhd] at hrun
        injection hrun with h
        injection h with h1 h2
        subst h1
        exact ⟨fun cat hc hlt => ⟨_, rfl⟩, fun t ht => nomatch ht⟩
      | some poolId =>
        simp only [hhd] at hrun
        by_cases hlt : (candidateQuestions db catId).length < effectiveQuizCount category
        · rw [if_pos hlt] at hrun
          injection hrun with h
          injection h with h1 h2
          subst h1
          exact ⟨fun cat hc hlt2 => ⟨_, rfl⟩, fun t ht => nomatch ht⟩
        · rw [if_neg hlt] at hrun
          cases hsel : selectLoop (candidateQuestions db catId)
              (effectiveQuizCount category) picks [] with
          | none =>
            simp only [hsel] at hrun
            exact absurd hrun (by simp)
          | some selected =>
            simp only [hsel] at hrun
            injection hrun with h
            injection h with h1 h2
            subst h1
            constructor
            · intro cat hc hlt2
              injection hc with hceq
              subst hceq
              exact absurd hlt2 hlt
            · intro t ht
              injection ht with hteq
              subst hteq
              refine ⟨category, rfl, ?_, ?_⟩
              · show (selected.map snapshotQuestion).length = _
                rw [List.length_map]
                exact (selectLoop_spec picks [] (Nat.zero_le _) (by simp) hsel).1
              · have hnd := (selectLoop_spec picks [] (Nat.zero_le _) (by simp) hsel).2
                simpa [genTask, List.map_map, Function.comp, snapshotQuestion] using hnd

/-- C3 witness. -/
theorem generate_task_question_count_witness :
    ∃ t db2, generateTaskFromQuestionPool 5 1 [0, 1] dbGen = some (GenResult.ok t, db2)
      ∧ t.questions.length = effectiveQuizCount catGen
      ∧ (t.questions.map (fun q => q.oid)).Nodup := by
  obtain ⟨t, db2, hrun⟩ :
      ∃ t d, generateTaskFromQuestionPool 5 1 [0, 1] dbGen = some (GenResult.ok t, d) :=
    ⟨_, _, rfl⟩
  obtain ⟨cat, hcat, hlen, hnd⟩ := (generate_task_question_count hrun).2 t rfl
  have hcg : findCategory dbGen 1 = some catGen := rfl
  rw [hcg] at hcat
  injection hcat with hceq
  subst hceq
  exact ⟨t, db2, hrun, hlen, hnd⟩

/-- C7: a completeLesson call for an already-completed lesson is rejected
with AlreadyCompleted (HTTP 400) and the state is unchanged. -/
theorem mark_already_completed {db : DB} {lesson : Lesson} {user : User}
    (userId lessonId : Oid) (picks : List Nat)
    (hL : findLesson db lessonId = some lesson)
    (hU : findUser db userId = some user)
    (hEnr : user.roadmap.contains lesson.roadmap = true)
    (hDone : user.completedlesson.contains lessonId = true) :
    markLessonAsCompleted userId lessonId picks db = some (.alreadyCompleted, db)
    ∧ markStatus MarkResult.alreadyCompleted = 400 := by
  refine ⟨?_, rfl⟩
  unfold markLessonAsCompleted
  simp only [hL, hU, hEnr, hDone, not_true, if_false, if_true]

/-- C7 witness. -/
theorem mark_already_completed_witness :
    markLessonAsCompleted 5 21 [] dbDone = some (MarkResult.alreadyCompleted, dbDone)
    ∧ markStatus MarkResult.alreadyCompleted = 400 :=
  mark_already_completed 5 21 [] rfl rfl rfl rfl

/-- C2: when category completion triggers task generation and it fails,
the transaction aborts: the returned state is the input state, the lesson
is not recorded
as completed, and the response is a 500 with taskGenerated false. -/
theorem mark_gen_failure_rollback {userId lessonId : Oid} {picks : List Nat}
    {db db2 : DB} {msg : String}
    (hrun : markLessonAsCompleted userId lessonId picks db = some (.genFailed msg, db2)) :
    db2 = db
    ∧ (∀ usr, findUser db2 userId = some usr →
        usr.completedlesson.contains lessonId = false)
    ∧ (∀ les, findLesson db lessonId = some les →
        les.completedby.contains userId = false →
        ∀ les2, findLesson db2 lessonId = some les2 →
          les2.completedby.contains userId = false)
    ∧ (∀ catId, (¬ ∃ tk ∈ db.tasks, tk.user = userId ∧ tk.category = catId) →
        ¬ ∃ tk ∈ db2.tasks, tk.user = userId ∧ tk.category = catId)
    ∧ taskGeneratedFlag (MarkResult.genFailed msg) = false
    ∧ markStatus (MarkResult.genFailed msg) = 500 := by
  unfold markLessonAsCompleted at hrun
  cases hL : findLesson db lessonId with
  | none => simp only [hL] at hrun; simp at hrun
  | some lesson =>
  simp only [hL] at hrun
  cases hU : findUser db userId with
  | none => simp only [hU] at hrun; simp at hrun
  | some user =>
  simp only [hU] at hrun
  by_cases hEnr : user.roadmap.contains lesson.roadmap = true
  case neg =>
    rw [if_pos hEnr] at hrun
    simp at hrun
  case pos =>
  rw [if_neg (not_not_intro hEnr)] at hrun
  by_cases hDone : user.completedlesson.contains lessonId = true
  case pos =>
    rw [if_pos hDone] at hrun
    simp at hrun
  case neg =>
  rw [if_neg hDone] at hrun
  cases hC : findCategory db lesson.category with
  | none => simp only [hC] at hrun; simp at hrun
  | some cat =>
  simp only [hC] at hrun
  cases hS : findStage db lesson.stage with
  | none => simp only [hS] at hrun; simp at hrun
  | some stg =>
  simp only [hS] at hrun
  cases hR : findRoadmap db lesson.roadmap with
  | none => simp only [hR] at hrun; simp at hrun
  | some rm =>
  simp only [hR] at hrun
  cases hV1 : stageTierViolation db user stg lesson.roadmap with
  | some b => simp only [hV1] at hrun; simp at hrun
  | none =>
  simp only [hV1] at hrun
  cases hV2 : categoryTierViolation db user cat stg with
  | some b => simp only [hV2] at hrun; simp at hrun
  | none =>
  simp only [hV2] at hrun
  cases hV3 : lessonTierViolation db user cat lessonId with
  | some b => simp only [hV3] at hrun; simp at hrun
  | none =>
  simp only [hV3] at hrun
  cases hCheck : checkCategoryCompletion userId lesson.category
      (addCompletion db userId lessonId) with
  | failure m => simp only [hCheck] at hrun; simp at hrun
  | ok isC cc tc =>
  simp only [hCheck] at hrun
  by_cases hic : isC = true
  case neg =>
    rw [if_neg hic] at hrun
    simp at hrun
  case pos =>
  rw [if_pos hic] at hrun
  cases hGen : generateTaskFromQuestionPool userId lesson.category picks
      (addCompletion db userId lessonId) with
  | none => simp only [hGen] at hrun; simp at hrun
  | some pr =>
  obtain ⟨gr, dbg⟩ := pr
  cases gr with
  | ok tsk => simp only [hGen] at hrun; simp at hrun
  | failure m2 =>
  simp only [hGen] at hrun
  injection hrun with h
  injection h with h1 h2
  subst h2
  have hDoneF : user.completedlesson.contains lessonId = false :=
    Bool.not_eq_true _ |>.mp hDone
  refine ⟨rfl, ?_, ?_, ?_, rfl, rfl⟩
  · intro usr h
    rw [hU] at h
    injection h with he
    subst he
    exact hDoneF
  · intro les hles hnc les2 hles2
    injection hles with he
    subst he
    rw [hL] at hles2
    injection hles2 with he2
    subst he2
    exact hnc
  · intro catId hno
    exact hno

theorem stageTierViolation_none_iff (db : DB) (user : User) (stg : Stage) (roadmapId : Oid) :
    stageTierViolation db user stg roadmapId = none ↔
      specStagePrereq db user stg roadmapId := by
  unfold stageTierViolation specStagePrereq firstUncompleted
  simp [List.findSome?_eq_none_iff, List.find?_eq_none]

theorem categoryTierViolation_none_iff (db : DB) (user : User) (cat : Category) (stg : Stage) :
    categoryTierViolation db user cat stg = none ↔
      specCategoryPrereq db user cat stg := by
  unfold categoryTierViolation specCategoryPrereq firstUncompleted
  simp [List.findSome?_eq_none_iff, List.find?_eq_none]

theorem lessonTierViolation_none_iff (db : DB) (user : User) (cat : Category) (lessonId : Oid) :
    lessonTierViolation db user cat lessonId = none ↔
      specLessonPrereq db user cat lessonId := by
  unfold lessonTierViolation specLessonPrereq listPredecessorOf
  cases hidx : (db.lessons.filter (fun l => decide (l.category = cat.oid))).findIdx?
      (fun l => decide (l.oid = lessonId)) with
  | none => simp [hidx]
  | some i =>
    cases i with
    | zero => simp [hidx]
    | succ n =>
      simp only [hidx]
      cases hget : (db.lessons.filter (fun l => decide (l.category = cat.oid)))[n]? with
      | none => simp [hget]
      | some p =>
        by_cases hc : user.completedlesson.contains p.oid = true
        · simp [hget, hc]
        · simp [hget, hc]

theorem stageTierViolation_some {db : DB} {user : User} {stg : Stage} {roadmapId : Oid}
    {b : Lesson} (h : stageTierViolation db user stg roadmapId = some b) :
    b ∈ db.lessons ∧ user.completedlesson.contains b.oid = false := by
  unfold stageTierViolation at h
  obtain ⟨st, _hst, h2⟩ := List.exists_of_findSome?_eq_some h
  obtain ⟨c, _hc, h3⟩ := List.exists_of_findSome?_eq_some h2
  unfold firstUncompleted at h3
  have hmem := List.mem_of_find?_eq_some h3
  have hpred := List.find?_some h3
  constructor
  · unfold populatedLessons at hmem
    obtain ⟨ref, _hr, hf⟩ := List.mem_filterMap.mp hmem
    exact List.mem_of_find?_eq_some hf
  · simpa using hpred

theorem categoryTierViolation_some {db : DB} {user : User} {cat : Category} {stg : Stage}
    {b : Lesson} (h : categoryTierViolation db user cat stg = some b) :
    b ∈ db.lessons ∧ user.completedlesson.contains b.oid = false := by
  unfold categoryTierViolation at h
  obtain ⟨c, _hc, h2⟩ := List.exists_of_findSome?_eq_some h
  unfold firstUncompleted at h2
  have hmem := List.mem_of_find?_eq_some h2
  have hpred := List.find?_some h2
  constructor
  · unfold populatedLessons at hmem
    obtain ⟨ref, _hr, hf⟩ := List.mem_filterMap.mp hmem
    exact List.mem_of_find?_eq_some hf
  · simpa using hpred

theorem lessonTierViolation_some {db : DB} {user : User} {cat : Category} {lessonId : Oid}
    {b : Lesson} (h : lessonTierViolation db user cat lessonId = some b) :
    b ∈ db.lessons ∧ user.completedlesson.contains b.oid = false := by
  unfold lessonTierViolation at h
  cases hidx : (db.lessons.filter (fun l => decide (l.category = cat.oid))).findIdx?
      (fun l => decide (l.oid = lessonId)) with
  | none => simp [hidx] at h
  | some i =>
    cases i with
    | zero => simp [hidx] at h
    | succ n =>
      simp only [hidx] at h
      cases hget : (db.lessons.filter (fun l => decide (l.category = cat.oid)))[n]? with
      | none => simp [hget] at h
      | some p =>
        simp only [hget] at h
        by_cases hc : user.completedlesson.contains p.oid = true
        · rw [if_pos hc] at h
          exact absurd h (by simp)
        · rw [if_neg hc] at h
          injection h with he
          subst he
          exact ⟨List.mem_of_mem_filter (List.getElem?_mem hget),
            Bool.not_eq_true _ |>.mp hc⟩

/-- C1 (amended): markLessonAsCompleted succeeds (HTTP 200) only if every
lesson of every stage preceding the current stage in the order-sorted
stage list, every lesson of every category preceding the current category
within the stage, and the lesson immediately preceding the current one in
the stored collection order of the category (not by lecture_number: the source
issues Lesson.find without a sort) are completed by the user; when a tier
fails (the earlier gates passing), the result is a 403 prerequisite error
naming an actually-blocking uncompleted lesson and the state is
unchanged. -/
theorem mark_prerequisite_gating {userId lessonId : Oid} {picks : List Nat}
    {db db2 : DB} {r : MarkResult} {lesson : Lesson} {user : User}
    {cat : Category} {stg : Stage} {rm : Roadmap}
    (hrun : markLessonAsCompleted userId lessonId picks db = some (r, db2))
    (hL : findLesson db lessonId = some lesson)
    (hU : findUser db userId = some user)
    (hC : findCategory db lesson.category = some cat)
    (hS : findStage db lesson.stage = some stg)
    (hR : findRoadmap db lesson.roadmap = some rm) :
    (markStatus r = 200 →
      specStagePrereq db user stg lesson.roadmap
      ∧ specCategoryPrereq db user cat stg
      ∧ specLessonPrereq db user cat lessonId)
    ∧ (∀ b bt, (r = .stagePrereq b bt ∨ r = .categoryPrereq b bt ∨ r = .lessonPrereq b bt) →
        markStatus r = 403 ∧ db2 = db
        ∧ ∃ bl, bl ∈ db.lessons ∧ bl.oid = b ∧ bl.title = bt
            ∧ user.completedlesson.contains bl.oid = false)
    ∧ (user.roadmap.contains lesson.roadmap = true →
        user.completedlesson.contains lessonId = false →
        ¬ (specStagePrereq db user stg lesson.roadmap
          ∧ specCategoryPrereq db user cat stg
          ∧ specLessonPrereq db user cat lessonId) →
        ∃ b bt, (r = .stagePrereq b bt ∨ r = .categoryPrereq b bt ∨ r = .lessonPrereq b bt)
          ∧ db2 = db) := by
  unfold markLessonAsCompleted at hrun
  simp only [hL, hU, hC, hS, hR] at hrun
  by_cases hEnr : user.roadmap.contains lesson.roadmap = true
  case neg =>
    rw [if_pos hEnr] at hrun
    injection hrun with h
    injection h with h1 h2
    subst h1
    subst h2
    refine ⟨fun h200 => absurd h200 (by decide), ?_, fun henr _ _ => absurd henr hEnr⟩
    rintro b bt (h | h | h) <;> cases h
  case pos =>
  rw [if_neg (not_not_intro hEnr)] at hrun
  by_cases hDone : user.completedlesson.contains lessonId = true
  case pos =>
    rw [if_pos hDone] at hrun
    injection hrun with h
    injection h with h1 h2
    subst h1
    subst h2
    refine ⟨fun h200 => absurd h200 (by decide), ?_, ?_⟩
    · rintro b bt (h | h | h) <;> cases h
    · intro _ hnd _
      rw [hDone] at hnd
      exact absurd hnd (by decide)
  case neg =>
  rw [if_neg hDone] at hrun
  cases hV1 : stageTierViolation db user stg lesson.roadmap with
  | some b0 =>
    simp only [hV1] at hrun
    injection hrun with h
    injection h with h1 h2
    subst h1
    subst h2
    obtain ⟨hbmem, hbnc⟩ := stageTierViolation_some hV1
    refine ⟨fun h200 => by simp [markStatus] at h200, ?_, ?_⟩
    · rintro b bt (h | h | h) <;> cases h
      exact ⟨rfl, rfl, b0, hbmem, rfl, rfl, hbnc⟩
    · intro _ _ _
      exact ⟨b0.oid, b0.title, Or.inl rfl, rfl⟩
  | none =>
  simp only [hV1] at hrun
  cases hV2 : categoryTierViolation db user cat stg with
  | some b0 =>
    simp only [hV2] at hrun
    injection hrun with h
    injection h with h1 h2
    subst h1
    subst h2
    obtain ⟨hbmem, hbnc⟩ := categoryTierViolation_some hV2
    refine ⟨fun h200 => by simp [markStatus] at h200, ?_, ?_⟩
    · rintro b bt (h | h | h) <;> cases h
      exact ⟨rfl, rfl, b0, hbmem, rfl, rfl, hbnc⟩
    · intro _ _ _
      exact ⟨b0.oid, b0.title, Or.inr (Or.inl rfl), rfl⟩
  | none =>
  simp only [hV2] at hrun
  cases hV3 : lessonTierViolation db user cat lessonId with
  | some b0 =>
    simp only [hV3] at hrun
    injection hrun with h
    injection h with h1 h2
    subst h1
    subst h2
    obtain ⟨hbmem, hbnc⟩ := lessonTierViolation_some hV3
    refine ⟨fun h200 => by simp [markStatus] at h200, ?_, ?_⟩
    · rintro b bt (h | h | h) <;> cases h
      exact ⟨rfl, rfl, b0, hbmem, rfl, rfl, hbnc⟩
    · intro _ _ _
      exact ⟨b0.oid, b0.title, Or.inr (Or.inr rfl), rfl⟩
  | none =>
  simp only [hV3] at hrun
  have hspec : specStagePrereq db user stg lesson.roadmap
      ∧ specCategoryPrereq db user cat stg
      ∧ specLessonPrereq db user cat lessonId :=
    ⟨(stageTierViolation_none_iff db user stg lesson.roadmap).mp hV1,
      (categoryTierViolation_none_iff db user cat stg).mp hV2,
      (lessonTierViolation_none_iff db user cat lessonId).mp hV3⟩
  have hfinish : ∀ r2 : MarkResult,
      (∀ b bt, ¬ (r2 = MarkResult.stagePrereq b bt ∨ r2 = MarkResult.categoryPrereq b bt
        ∨ r2 = MarkResult.lessonPrereq b bt)) →
      (markStatus r2 = 200 →
        specStagePrereq db user stg lesson.roadmap
        ∧ specCategoryPrereq db user cat stg
        ∧ specLessonPrereq db user cat lessonId)
      ∧ (∀ b bt, (r2 = .stagePrereq b bt ∨ r2 = .categoryPrereq b bt
            ∨ r2 = .lessonPrereq b bt) →
          markStatus r2 = 403 ∧ db2 = db
          ∧ ∃ bl, bl ∈ db.lessons ∧ bl.oid = b ∧ bl.title = bt
              ∧ user.completedlesson.contains bl.oid = false)
      ∧ (user.roadmap.contains lesson.roadmap = true →
          user.completedlesson.contains lessonId = false →
          ¬ (specStagePrereq db user stg lesson.roadmap
            ∧ specCategoryPrereq db user cat stg
            ∧ specLessonPrereq db user cat lessonId) →
          ∃ b bt, (r2 = .stagePrereq b bt ∨ r2 = .categoryPrereq b bt
              ∨ r2 = .lessonPrereq b bt) ∧ db2 = db) := by
    intro r2 hnp
    exact ⟨fun _ => hspec, fun b bt hor => absurd hor (hnp b bt),
      fun _ _ hn => absurd hspec hn⟩
  cases hCheck : checkCategoryCompletion userId lesson.category
      (addCompletion db userId lessonId) with
  | failure m =>
    simp only [hCheck] at hrun
    injection hrun with h
    injection h with h1 h2
    subst h1
    exact hfinish _ (by rintro b bt (h | h | h) <;> cases h)
  | ok isC cc tc =>
  simp only [hCheck] at hrun
  by_cases hic : isC = true
  case neg =>
    rw [if_neg hic] at hrun
    injection hrun with h
    injection h with h1 h2
    subst h1
    exact hfinish _ (by rintro b bt (h | h | h) <;> cases h)
  case pos =>
  rw [if_pos hic] at hrun
  cases hGen : generateTaskFromQuestionPool userId lesson.category picks
      (addCompletion db userId lessonId) with
  | none =>
    simp only [hGen] at hrun
    exact absurd hrun (by simp)
  | some pr =>
  obtain ⟨gr, dbg⟩ := pr
  cases gr with
  | failure m2 =>
    simp only [hGen] at hrun
    injection hrun with h
    injection h with h1 h2
    subst h1
    exact hfinish _ (by rintro b bt (h | h | h) <;> cases h)
  | ok tsk =>
    simp only [hGen] at hrun
    injection hrun with h
    injection h with h1 h2
    subst h1
    exact hfinish _ (by rintro b bt (h | h | h) <;> cases h)

/-- C1 counterexample: completing the lesson with `lecture_number` 2
succeeds although the lesson with `lecture_number` 1, its immediately
preceding lesson by `lecture_number` in the same category, is not
completed, because the source checks the unsorted collection order. -/
theorem mark_lecture_number_counterexample :
    (∃ db2, markLessonAsCompleted 5 32 [] dbSwap = some (MarkResult.completedNoTask, db2))
    ∧ markStatus MarkResult.completedNoTask = 200
    ∧ (∃ lA ∈ dbSwap.lessons, ∃ lB ∈ dbSwap.lessons, lB.oid = 32 ∧ lA.oid = 31
        ∧ immediatelyPrecedingByLectureNumber dbSwap 1 lB lA)
    ∧ userSwap.completedlesson.contains 31 = false
    ∧ findUser dbSwap 5 = some userSwap := by
  refine ⟨⟨_, rfl⟩, rfl, ?_, rfl, rfl⟩
  unfold immediatelyPrecedingByLectureNumber
  decide

/-- C1 witness. -/
theorem mark_prerequisite_gating_witness :
    markStatus (MarkResult.lessonPrereq 32 "L2") = 403
    ∧ (∃ bl, bl ∈ dbSwap.lessons ∧ bl.oid = 32 ∧ bl.title = "L2"
        ∧ userSwap.completedlesson.contains bl.oid = false) := by
  have hrun : markLessonAsCompleted 5 31 [] dbSwap
      = some (MarkResult.lessonPrereq 32 "L2", dbSwap) := rfl
  have h := mark_prerequisite_gating hrun rfl rfl rfl rfl rfl
  obtain ⟨hst, _hdb, hbl⟩ := h.2.1 32 "L2" (Or.inr (Or.inr rfl))
  exact ⟨hst, hbl⟩

/-- C2 witness. -/
theorem mark_gen_failure_rollback_witness :
    ∃ msg db2, markLessonAsCompleted 5 21 [] dbGenFail = some (MarkResult.genFailed msg, db2)
      ∧ db2 = dbGenFail
      ∧ (∀ usr, findUser db2 5 = some usr → usr.completedlesson.contains 21 = false)
      ∧ taskGeneratedFlag (MarkResult.genFailed msg) = false := by
  obtain ⟨msg, db2, hrun⟩ :
      ∃ m d, markLessonAsCompleted 5 21 [] dbGenFail = some (MarkResult.genFailed m, d) :=
    ⟨_, _, rfl⟩
  have h := mark_gen_failure_rollback hrun
  exact ⟨msg, db2, hrun, h.1, h.2.1, h.2.2.2.2.1⟩

end CodeMap
